import Mathlib

/-! Blog server: lazy render-and-cache of posts (`cmd/main.go`).

A shallow embedding of the startup loop of `main`, of `FileReader.Read` and of the
request handler built by `PostHandler`, followed by the properties of the lazy
render path, of the body extraction and of the global lock `postMutex`.

Go strings are byte sequences; they are modelled as lists of byte values.
The global lock is explicit state (free / held, not reentrant): a `Lock` on a
held lock does not proceed.  The external collaborators (the file system, the
front-matter decoder, the markdown converter) are parameters.
-/

namespace Blog

/-! ## Data model -/

/-- A Go `string`: a sequence of bytes, each given by its value. -/
abbrev GoString := List Nat

/-- A Go `error` value: `none` is `nil`, `some msg` an error. -/
abbrev GoError := Option GoString

/-- The bytes of an ASCII literal. -/
def ascii (s : String) : GoString := s.data.map Char.toNat

/-- The `Author` struct. -/
structure Author where
  Name : GoString
  Email : GoString
  deriving DecidableEq, Repr

/-- The `Post` struct. -/
structure Post where
  Title : GoString
  Slug : GoString
  Content : GoString
  Author : Author
  Loaded : Bool
  deriving DecidableEq, Repr

/-- The zero value of `Post`, as produced by `var post Post`. -/
def Post.zero : Post :=
  { Title := [], Slug := [], Content := [], Author := { Name := [], Email := [] }, Loaded := false }

/-- The type `Posts` (`[]Post`): the ordered listing holds posts by value. -/
abbrev Posts := List Post

/-- What a handler writes to the client: `c.String(code, text)` or
`c.Render(code, name, post)`. -/
inductive Response where
  | text (code : Nat) (body : GoString)
  | render (code : Nat) (name : GoString) (data : Post)
  deriving DecidableEq, Repr

/-- How one run of the handler ends: it returns, or its goroutine waits without end
in the `postMutex.Lock()` of the given source line, or the slice expression of
line 127 panics. -/
inductive Outcome where
  | returned
  | blocked (line : Nat)
  | panicked
  deriving DecidableEq, Repr

/-- The process state: the registry `postsMap` (each key owns its own `Post` cell),
the lock `postMutex` (`true` = held), and the observable history: the arguments of
the calls to `SlugReader.Read`, the inputs of the calls to the markdown converter,
and the responses written. -/
structure State where
  postsMap : List (GoString × Post)
  postMutex : Bool
  reads : List GoString
  converts : List GoString
  written : List Response
  deriving DecidableEq, Repr

/-- The state before `main` runs: empty map, free lock, empty history. -/
def State.init : State :=
  { postsMap := [], postMutex := false, reads := [], converts := [], written := [] }

/-! ## Go map operations on `postsMap` -/

/-- The lookup `postsMap[slug]` (comma-ok form): `none` when the key is absent. -/
def mapGet : List (GoString × Post) → GoString → Option Post
  | [], _ => none
  | (k, v) :: m, slug => if k = slug then some v else mapGet m slug

/-- The assignment `postsMap[slug] = &post`: replaces the entry of an existing key,
adds an entry otherwise. -/
def mapSet : List (GoString × Post) → GoString → Post → List (GoString × Post)
  | [], slug, p => [(slug, p)]
  | (k, v) :: m, slug, p => if k = slug then (k, p) :: m else (k, v) :: mapSet m slug p

/-- The number of registry entries whose key is `slug`. -/
def keyCount (m : List (GoString × Post)) (slug : GoString) : Nat :=
  (m.filter (fun e => decide (e.1 = slug))).length

/-! ## Standard-library string functions, by their documented behaviour -/

/-- The function `strings.LastIndex` as a search: the greatest index at which `sep`
occurs in `s`, if any. -/
def lastIndex? : GoString → GoString → Option Nat
  | [], sep => if sep = [] then some 0 else none
  | c :: cs, sep =>
    match lastIndex? cs sep with
    | some i => some (i + 1)
    | none => if sep.isPrefixOf (c :: cs) then some 0 else none

/-- The function `strings.LastIndex(s, sep)`: the index of the last instance of `sep`
in `s`, or `-1` when `sep` is not present in `s`. -/
def LastIndex (s sep : GoString) : Int :=
  match lastIndex? s sep with
  | some i => (i : Int)
  | none => -1

/-- The function `strings.TrimSuffix(s, suffix)`: `s` without the trailing `suffix`
when it ends with it, `s` unchanged otherwise. -/
def TrimSuffix (s suffix : GoString) : GoString :=
  if suffix.isSuffixOf s then s.take (s.length - suffix.length) else s

/-! ## Lock operations -/

/-- The call `postMutex.Lock()`: takes a free lock; on a held lock the caller does
not proceed (`none`). -/
def Lock (s : State) : Option State :=
  if s.postMutex then none else some { s with postMutex := true }

/-- The call `postMutex.Unlock()`. -/
def Unlock (s : State) : State := { s with postMutex := false }

/-! ## The reader -/

/-- The `SlugReader` interface: `Read(slug)` returns a document and an error.  The
first argument is the number of calls made before this one, so that a reader may
answer differently from one call to the next. -/
abbrev SlugReader := Nat → GoString → GoString × GoError

/-- A file system: the contents of a path, or the error of opening or reading it. -/
abbrev FileSystem := GoString → Except GoString GoString

/-- The method `FileReader.Read`: the contents of `posts/<slug>.md`, or the empty
string together with the error. -/
def FileReader.Read (fs : FileSystem) (slug : GoString) : GoString × GoError :=
  match fs (ascii "posts/" ++ slug ++ ascii ".md") with
  | .error err => ([], some err)
  | .ok b => (b, none)

/-- The value `FileReader{}` seen as a `SlugReader` over a file system that does not
change. -/
def FileReader (fs : FileSystem) : SlugReader := fun _ slug => FileReader.Read fs slug

/-! ## The request handler -/

/-- The markdown converter `mdRenderer.Convert(source, &buf)`: the bytes left in the
buffer and the error. -/
abbrev Converter := GoString → GoString × GoError

/-- The front-matter delimiter followed by a newline, `"+++\n"`. -/
def delim : GoString := [43, 43, 43, 10]

/-- Lines 126-127: `contentStart := strings.LastIndex(postMarkdown, "+++\n") + len("+++\n")`
and `rest := postMarkdown[contentStart:]`; `none` when the slice expression panics
(start index out of range). -/
def extractRest (postMarkdown : GoString) : Option GoString :=
  let contentStart : Int := LastIndex postMarkdown delim + (delim.length : Int)
  if 0 ≤ contentStart ∧ contentStart ≤ (postMarkdown.length : Int) then
    some (postMarkdown.drop contentStart.toNat)
  else none

/-- The call `c.String(code, text)`. -/
def cString (s : State) (code : Nat) (text : GoString) : State :=
  { s with written := s.written ++ [Response.text code text] }

/-- The call `c.Render(code, name, post)`. -/
def cRender (s : State) (code : Nat) (name : GoString) (post : Post) : State :=
  { s with written := s.written ++ [Response.render code name post] }

/-- The handler returned by `PostHandler(sl)`, run on one request for `slug` from
state `s`, line by line. -/
def PostHandler (sl : SlugReader) (convert : Converter) (slug : GoString) (s : State) :
    State × Outcome :=
  -- line 119: postMutex.Lock()
  match Lock s with
  | none => (s, Outcome.blocked 119)
  | some s1 =>
    -- line 120: post, exists := postsMap[slug]
    match mapGet s1.postsMap slug with
    | none =>
      -- line 122: return c.String(http.StatusNotFound, "Post not found")
      (cString s1 404 (ascii "Post not found"), Outcome.returned)
    | some post =>
      if post.Loaded = false then
        -- line 125: postMarkdown, err := sl.Read(post.Slug); err is not inspected
        let postMarkdown := (sl s1.reads.length post.Slug).1
        let s2 := { s1 with reads := s1.reads ++ [post.Slug] }
        -- lines 126-127
        match extractRest postMarkdown with
        | none => (s2, Outcome.panicked)
        | some rest =>
          -- line 136: err = mdRenderer.Convert([]byte(rest), &buf)
          let buf := (convert rest).1
          let err := (convert rest).2
          let s3 := { s2 with converts := s2.converts ++ [rest] }
          -- lines 137-139: the 500 text is written, the handler goes on
          let s4 := if err ≠ none then cString s3 500 (ascii "Could not render md") else s3
          -- line 140: postMutex.Lock()
          match Lock s4 with
          | none => (s4, Outcome.blocked 140)
          | some s5 =>
            -- lines 141-142: post.Content = template.HTML(buf.String()); post.Loaded = true
            let post1 := { post with Content := buf, Loaded := true }
            let s6 := { s5 with postsMap := mapSet s5.postsMap slug post1 }
            -- line 143: postMutex.Unlock()
            let s7 := Unlock s6
            -- line 145
            (cRender s7 200 (ascii "post.html") post1, Outcome.returned)
      else
        -- line 145: return c.Render(http.StatusOK, "post.html", post)
        (cRender s1 200 (ascii "post.html") post, Outcome.returned)

/-- Requests served one after the other, each by its own run of the handler; a run
that does not return leaves its goroutine waiting and the state as it stands. -/
def serve (sl : SlugReader) (convert : Converter) : List GoString → State → State
  | [], s => s
  | slug :: rest, s => serve sl convert rest (PostHandler sl convert slug s).1

/-! ## The startup loop of `main` -/

/-- The call `frontmatter.Parse(strings.NewReader(postMarkdown), &post)`: decodes the
front matter of the document into the given post; `none` when it returns an error. -/
abbrev FrontMatter := GoString → Post → Option Post

/-- Lines 64-80 of `main`: the loop over the directory entries, from the state and
listing built so far; `none` when `log.Fatal` ends the process (or when the `Lock` of
line 76 finds the lock held, so that the loop never ends). -/
def mainLoop (fs : FileSystem) (parse : FrontMatter) :
    List GoString → State × Posts → Option (State × Posts)
  | [], acc => some acc
  | name :: files, (s, posts) =>
    -- line 65
    let slug := TrimSuffix name (ascii ".md")
    -- line 66: postMarkdown, err := fr.Read(slug)
    let r := FileReader.Read fs slug
    let s1 := { s with reads := s.reads ++ [slug] }
    match r.2 with
    | some _ => none
    | none =>
      -- lines 70-72: var post Post; post.Slug = slug; frontmatter.Parse(..., &post)
      match parse r.1 { Post.zero with Slug := slug } with
      | none => none
      | some post =>
        -- lines 76-78
        match Lock s1 with
        | none => none
        | some s2 =>
          let s3 := Unlock { s2 with postsMap := mapSet s2.postsMap slug post }
          -- line 79
          mainLoop fs parse files (s3, posts ++ [post])

/-- The startup of `main` on the directory listing `files`. -/
def startup (fs : FileSystem) (parse : FrontMatter) (files : List GoString) :
    Option (State × Posts) :=
  mainLoop fs parse files (State.init, [])

/-! ## Concrete scenarios -/

/-- The slug `hello`. -/
def helloSlug : GoString := ascii "hello"

/-- The document `posts/hello.md`. -/
def helloDoc : GoString :=
  ascii "+++\ntitle=\"Hello\"\nslug=\"hello\"\n[author]\nname=\"A\"\nemail=\"a@x.com\"\n+++\n# Hi\nworld"

/-- The markdown body of `posts/hello.md`. -/
def helloBody : GoString := ascii "# Hi\nworld"

/-- The HTML of the body of `posts/hello.md`. -/
def helloHTML : GoString := ascii "<h1>Hi</h1>\n<p>world</p>\n"

/-- The post record of `hello.md` as the startup loop leaves it. -/
def helloPost : Post :=
  { Title := ascii "Hello", Slug := helloSlug, Content := [],
    Author := { Name := ascii "A", Email := ascii "a@x.com" }, Loaded := false }

/-- A posts directory holding only `hello.md`. -/
def helloFs : FileSystem := fun path =>
  if path = ascii "posts/hello.md" then .ok helloDoc else .error (ascii "no such file")

/-- An empty posts directory: every open fails. -/
def emptyFs : FileSystem := fun _ => .error (ascii "no such file")

/-- A converter that renders the body of `hello.md` and echoes any other input. -/
def helloConvert : Converter := fun src =>
  if src = helloBody then (helloHTML, none) else (src, none)

/-- A converter that fails on every input, leaving the buffer empty. -/
def failConvert : Converter := fun _ => ([], some (ascii "convert failed"))

/-- The state after startup with `hello.md` registered, unloaded, the lock free. -/
def helloState : State := { State.init with postsMap := [(helloSlug, helloPost)] }

/-- The post `hello` once rendered. -/
def helloLoaded : Post := { helloPost with Content := helloHTML, Loaded := true }

/-- A state in which `hello` is already loaded, the lock free. -/
def loadedState : State := { State.init with postsMap := [(helloSlug, helloLoaded)] }

/-- The document of the delimiter example: its body holds `+++` again. -/
def dividerDoc : GoString := ascii "+++\ntitle=\"A\"\n+++\nsee +++ divider below\n"

/-- The body of the delimiter example. -/
def dividerBody : GoString := ascii "see +++ divider below\n"

/-- A reader that returns the delimiter example for every slug. -/
def dividerReader : SlugReader := fun _ _ => (dividerDoc, none)

/-- The state with the post `a` of the delimiter example registered, unloaded. -/
def dividerState : State :=
  { State.init with postsMap := [(ascii "a", { Post.zero with Title := ascii "A", Slug := ascii "a" })] }

/-- A front-matter document that sets the slug `b`. -/
def overrideDoc : GoString := ascii "+++\ntitle=\"A\"\nslug=\"b\"\n+++\nbody\n"

/-- A posts directory holding only `a.md`, whose front matter sets the slug `b`. -/
def overrideFs : FileSystem := fun path =>
  if path = ascii "posts/a.md" then .ok overrideDoc else .error (ascii "no such file")

/-- The post that the startup loop builds from `a.md`: its slug is `b`. -/
def overridePost : Post := { Post.zero with Title := ascii "A", Slug := ascii "b" }

/-- The decoder on the documents of the scenarios: `overrideDoc` sets title `A` and
slug `b`, `helloDoc` sets title, slug and author; any other document is rejected. -/
def demoParse : FrontMatter := fun doc post =>
  if doc = overrideDoc then some { post with Title := ascii "A", Slug := ascii "b" }
  else if doc = helloDoc then
    some { post with Title := ascii "Hello", Slug := ascii "hello",
                     Author := { Name := ascii "A", Email := ascii "a@x.com" } }
  else none

/-! ## The lock and the registry across one request -/

/-- A request that finds the lock held waits at line 119 and changes nothing. -/
theorem PostHandler_of_held (sl : SlugReader) (convert : Converter) (slug : GoString)
    (s : State) (h : s.postMutex = true) :
    PostHandler sl convert slug s = (s, Outcome.blocked 119) := by
  simp [PostHandler, Lock, h]

/-- A request for a slug that is not in the registry, the lock free: the 404 text is
written and the handler returns, the lock still held. -/
theorem PostHandler_of_absent (sl : SlugReader) (convert : Converter) (slug : GoString)
    (s : State) (hm : s.postMutex = false) (hget : mapGet s.postsMap slug = none) :
    PostHandler sl convert slug s =
      (cString { s with postMutex := true } 404 (ascii "Post not found"), Outcome.returned) := by
  simp [PostHandler, Lock, hm, hget]

/-- A request for a loaded post, the lock free: the post is rendered as stored and the
handler returns, the lock still held. -/
theorem PostHandler_of_loaded (sl : SlugReader) (convert : Converter) (slug : GoString)
    (s : State) (post : Post) (hm : s.postMutex = false)
    (hget : mapGet s.postsMap slug = some post) (hl : post.Loaded = true) :
    PostHandler sl convert slug s =
      (cRender { s with postMutex := true } 200 (ascii "post.html") post, Outcome.returned) := by
  simp [PostHandler, Lock, hm, hget, hl]

/-- A request for an unloaded post whose document makes the slice of line 127 go out
of range: the handler panics after the read. -/
theorem PostHandler_of_unloaded_panic (sl : SlugReader) (convert : Converter)
    (slug : GoString) (s : State) (post : Post) (hm : s.postMutex = false)
    (hget : mapGet s.postsMap slug = some post) (hl : post.Loaded = false)
    (hrest : extractRest (sl s.reads.length post.Slug).1 = none) :
    PostHandler sl convert slug s =
      ({ s with postMutex := true, reads := s.reads ++ [post.Slug] }, Outcome.panicked) := by
  simp [PostHandler, Lock, hm, hget, hl, hrest]

/-- A request for an unloaded post whose document can be sliced: the document is read,
its rest converted, the 500 text written when the conversion fails, and the handler
then waits at line 140 for the lock it took at line 119. -/
theorem PostHandler_of_unloaded (sl : SlugReader) (convert : Converter)
    (slug : GoString) (s : State) (post : Post) (rest : GoString) (hm : s.postMutex = false)
    (hget : mapGet s.postsMap slug = some post) (hl : post.Loaded = false)
    (hrest : extractRest (sl s.reads.length post.Slug).1 = some rest) :
    PostHandler sl convert slug s =
      ({ s with
          postMutex := true
          reads := s.reads ++ [post.Slug]
          converts := s.converts ++ [rest]
          written := if (convert rest).2 ≠ none then
              s.written ++ [Response.text 500 (ascii "Could not render md")]
            else s.written },
        Outcome.blocked 140) := by
  by_cases he : (convert rest).2 = none
  · simp [PostHandler, Lock, hm, hget, hl, hrest, he]
  · simp [PostHandler, Lock, hm, hget, hl, hrest, he, cString]

/-- The five ways a request can go, by the lock, the registry and the document. -/
theorem PostHandler_cases (sl : SlugReader) (convert : Converter) (slug : GoString)
    (s : State) :
    (s.postMutex = true ∧ PostHandler sl convert slug s = (s, Outcome.blocked 119)) ∨
    PostHandler sl convert slug s =
      (cString { s with postMutex := true } 404 (ascii "Post not found"), Outcome.returned) ∨
    (∃ post : Post, PostHandler sl convert slug s =
      (cRender { s with postMutex := true } 200 (ascii "post.html") post, Outcome.returned)) ∨
    (∃ post : Post, PostHandler sl convert slug s =
      ({ s with postMutex := true, reads := s.reads ++ [post.Slug] }, Outcome.panicked)) ∨
    (∃ (post : Post) (rest : GoString) (w : List Response), PostHandler sl convert slug s =
      ({ s with postMutex := true, reads := s.reads ++ [post.Slug],
                converts := s.converts ++ [rest], written := w }, Outcome.blocked 140)) := by
  cases hm : s.postMutex with
  | true => exact Or.inl ⟨rfl, PostHandler_of_held sl convert slug s hm⟩
  | false =>
    cases hget : mapGet s.postsMap slug with
    | none => exact Or.inr (Or.inl (PostHandler_of_absent sl convert slug s hm hget))
    | some post =>
      cases hl : post.Loaded with
      | true =>
        exact Or.inr (Or.inr (Or.inl ⟨post, PostHandler_of_loaded sl convert slug s post hm hget hl⟩))
      | false =>
        cases hrest : extractRest (sl s.reads.length post.Slug).1 with
        | none =>
          exact Or.inr (Or.inr (Or.inr (Or.inl
            ⟨post, PostHandler_of_unloaded_panic sl convert slug s post hm hget hl hrest⟩)))
        | some rest =>
          exact Or.inr (Or.inr (Or.inr (Or.inr
            ⟨post, rest, _, PostHandler_of_unloaded sl convert slug s post rest hm hget hl hrest⟩)))

/-- Whatever the request and however it ends, the lock is held afterwards. -/
theorem PostHandler_postMutex (sl : SlugReader) (convert : Converter) (slug : GoString)
    (s : State) : (PostHandler sl convert slug s).1.postMutex = true := by
  rcases PostHandler_cases sl convert slug s with
    ⟨hm, h⟩ | h | ⟨_, h⟩ | ⟨_, h⟩ | ⟨_, _, _, h⟩
  · rw [h]; exact hm
  all_goals (rw [h] <;> rfl)

/-- No request changes the registry: the store of lines 141-142 is never reached. -/
theorem PostHandler_postsMap (sl : SlugReader) (convert : Converter) (slug : GoString)
    (s : State) : (PostHandler sl convert slug s).1.postsMap = s.postsMap := by
  rcases PostHandler_cases sl convert slug s with
    ⟨_, h⟩ | h | ⟨_, h⟩ | ⟨_, h⟩ | ⟨_, _, _, h⟩ <;> rw [h] <;> rfl

/-- A run of requests changes no registry entry. -/
theorem serve_postsMap (sl : SlugReader) (convert : Converter) (reqs : List GoString) :
    ∀ s : State, (serve sl convert reqs s).postsMap = s.postsMap := by
  induction reqs with
  | nil => intro s; rfl
  | cons slug reqs ih =>
    intro s
    simp only [serve]
    rw [ih, PostHandler_postsMap]

/-- After at least one request the lock is held. -/
theorem serve_postMutex (sl : SlugReader) (convert : Converter) (slug : GoString)
    (reqs : List GoString) (s : State) :
    (serve sl convert (reqs ++ [slug]) s).postMutex = true := by
  induction reqs generalizing s with
  | nil => exact PostHandler_postMutex sl convert slug s
  | cons r reqs ih => exact ih _

/-- Once the lock is held, a run of requests changes nothing at all. -/
theorem serve_of_held (sl : SlugReader) (convert : Converter) (reqs : List GoString)
    (s : State) (h : s.postMutex = true) : serve sl convert reqs s = s := by
  induction reqs with
  | nil => rfl
  | cons slug reqs ih => simp only [serve]; rw [PostHandler_of_held sl convert slug s h]; exact ih

/-! ## The last occurrence of the delimiter -/

/-- What `lastIndex?` finds for a non-empty `sep`: an occurrence with no occurrence
starting further right; and nothing only when `sep` does not occur. -/
theorem lastIndex?_spec (sep : GoString) (hsep : sep ≠ []) (s : GoString) :
    (∀ i, lastIndex? s sep = some i →
      ∃ pre body : GoString, s = pre ++ sep ++ body ∧ pre.length = i ∧
        ¬ sep <:+: s.drop (i + 1)) ∧
    (lastIndex? s sep = none → ¬ sep <:+: s) := by
  induction s with
  | nil =>
    constructor
    · intro i hi
      simp [lastIndex?, hsep] at hi
    · intro _ hin
      exact hsep (List.infix_nil.mp hin)
  | cons c cs ih =>
    obtain ⟨ihsome, ihnone⟩ := ih
    cases hcs : lastIndex? cs sep with
    | none =>
      by_cases hp : sep.isPrefixOf (c :: cs) = true
      · constructor
        · intro i hi
          simp only [lastIndex?, hcs, hp, if_true, Option.some.injEq] at hi
          subst hi
          have hpre : sep <+: c :: cs := List.isPrefixOf_iff_prefix.mp hp
          refine ⟨[], (c :: cs).drop sep.length, ?_, rfl, ?_⟩
          · simpa using (List.prefix_iff_eq_append.mp hpre).symm
          · simpa using ihnone hcs
        · intro hn
          simp [lastIndex?, hcs, hp] at hn
      · constructor
        · intro i hi
          simp [lastIndex?, hcs, hp] at hi
        · intro _ hin
          rcases List.infix_cons_iff.mp hin with h1 | h1
          · exact hp (List.isPrefixOf_iff_prefix.mpr h1)
          · exact ihnone hcs h1
    | some j =>
      constructor
      · intro i hi
        simp only [lastIndex?, hcs, Option.some.injEq] at hi
        subst hi
        obtain ⟨pre, body, hdoc, hlen, hno⟩ := ihsome j hcs
        refine ⟨c :: pre, body, ?_, by simp [hlen], ?_⟩
        · simp [hdoc]
        · simpa using hno
      · intro hn
        simp [lastIndex?, hcs] at hn

/-- The canonical split of a document that holds the delimiter. -/
theorem extractRest_of_infix (doc : GoString) (h : delim <:+: doc) :
    ∃ pre body : GoString,
      doc = pre ++ delim ++ body ∧ ¬ delim <:+: body ∧
      LastIndex doc delim = (pre.length : Int) ∧
      (∀ pre1 body1 : GoString, doc = pre1 ++ delim ++ body1 → pre1.length ≤ pre.length) ∧
      extractRest doc = some body := by
  have hsep : delim ≠ [] := by decide
  obtain ⟨hsome, hnone⟩ := lastIndex?_spec delim hsep doc
  cases hl : lastIndex? doc delim with
  | none => exact absurd h (hnone hl)
  | some i =>
    obtain ⟨pre, body, hdoc, hlen, hno⟩ := hsome i hl
    have hdrop : doc.drop (i + 4) = body := by
      have : i + 4 = (pre ++ delim).length := by simp [hlen, delim]
      rw [this, hdoc]
      exact List.drop_left _ _
    have hLI : LastIndex doc delim = (i : Int) := by simp [LastIndex, hl]
    refine ⟨pre, body, hdoc, ?_, ?_, ?_, ?_⟩
    · intro hb
      apply hno
      have h3 : body = (doc.drop (i + 1)).drop 3 := by
        rw [List.drop_drop, ← hdrop]
      rw [h3] at hb
      exact hb.trans (List.drop_suffix 3 _).isInfix
    · rw [hLI, hlen]
    · intro pre1 body1 h1
      by_contra hlt
      have hle : i + 1 ≤ pre1.length := by omega
      apply hno
      rw [h1, List.append_assoc, List.drop_append_of_le_length hle]
      exact ⟨pre1.drop (i + 1), body1, by simp⟩
    · have hlen2 : doc.length = i + 4 + body.length := by
        rw [hdoc]; simp [hlen, delim]; omega
      have hd : (delim.length : Int) = 4 := by decide
      unfold extractRest
      simp only [hLI, hd]
      have hcond : (0 : Int) ≤ (i : Int) + 4 ∧ (i : Int) + 4 ≤ (doc.length : Int) := by
        constructor <;> omega
      rw [if_pos hcond]
      have : ((i : Int) + 4).toNat = i + 4 := by omega
      rw [this, hdrop]

/-- A request for a loaded post calls neither the reader nor the converter and leaves
the stored post as it is, whether the lock is free or held. -/
theorem PostHandler_loaded_quiet (sl : SlugReader) (convert : Converter) (slug : GoString)
    (s : State) (post : Post) (hget : mapGet s.postsMap slug = some post)
    (hl : post.Loaded = true) :
    (PostHandler sl convert slug s).1.reads = s.reads ∧
    (PostHandler sl convert slug s).1.converts = s.converts ∧
    mapGet (PostHandler sl convert slug s).1.postsMap slug = some post := by
  refine ⟨?_, ?_, ?_⟩
  · cases hm : s.postMutex with
    | true => rw [PostHandler_of_held sl convert slug s hm]
    | false => rw [PostHandler_of_loaded sl convert slug s post hm hget hl]; rfl
  · cases hm : s.postMutex with
    | true => rw [PostHandler_of_held sl convert slug s hm]
    | false => rw [PostHandler_of_loaded sl convert slug s post hm hget hl]; rfl
  · rw [PostHandler_postsMap]; exact hget

/-! ## The lazy render path -/

/-- C1, evaluated on the code: `hello` is registered and unloaded, the reader
returns `hello.md` and the converter succeeds on its body, yet the handler does not
complete: after the read and the conversion it waits at the `Lock` of line 140, no
response is written, and the post keeps its empty Content with Loaded = false. -/
theorem C1_unloaded_request_does_not_complete :
    mapGet helloState.postsMap helloSlug = some helloPost ∧
    FileReader.Read helloFs helloSlug = (helloDoc, none) ∧
    helloConvert helloBody = (helloHTML, none) ∧
    PostHandler (FileReader helloFs) helloConvert helloSlug helloState =
      ({ helloState with postMutex := true, reads := [helloSlug], converts := [helloBody] },
        Outcome.blocked 140) ∧
    mapGet (PostHandler (FileReader helloFs) helloConvert helloSlug helloState).1.postsMap
      helloSlug = some helloPost := by
  decide

/-- C2, evaluated on the code: after one earlier request (for an unknown slug, or for
the registered slug `hello`) a request for the unknown slug `nope` is not answered:
it waits at the `Lock` of line 119 and the only 404 text written is the one of the
earlier request. -/
theorem C2_unknown_slug_after_a_request_waits :
    mapGet helloState.postsMap (ascii "nope") = none ∧
    (serve (FileReader helloFs) helloConvert [ascii "other"] helloState).written =
      [Response.text 404 (ascii "Post not found")] ∧
    PostHandler (FileReader helloFs) helloConvert (ascii "nope")
        (serve (FileReader helloFs) helloConvert [ascii "other"] helloState) =
      (serve (FileReader helloFs) helloConvert [ascii "other"] helloState,
        Outcome.blocked 119) ∧
    PostHandler (FileReader helloFs) helloConvert (ascii "nope")
        (serve (FileReader helloFs) helloConvert [helloSlug] helloState) =
      (serve (FileReader helloFs) helloConvert [helloSlug] helloState,
        Outcome.blocked 119) ∧
    (serve (FileReader helloFs) helloConvert [helloSlug] helloState).written = [] := by
  decide

/-- C3, evaluated on the code: when the re-read fails (the file is gone, the reader
returns the empty string and an error) the handler panics in the slice of line 127
and writes nothing; when the conversion fails the 500 text is written but the handler
goes on to the `Lock` of line 140 and waits there; in both cases the next request for
the slug waits at line 119 and reads nothing. -/
theorem C3_failed_read_or_render :
    FileReader.Read emptyFs helloSlug = ([], some (ascii "no such file")) ∧
    PostHandler (FileReader emptyFs) helloConvert helloSlug helloState =
      ({ helloState with postMutex := true, reads := [helloSlug] }, Outcome.panicked) ∧
    PostHandler (FileReader helloFs) failConvert helloSlug helloState =
      ({ helloState with
          postMutex := true, reads := [helloSlug], converts := [helloBody],
          written := [Response.text 500 (ascii "Could not render md")] },
        Outcome.blocked 140) ∧
    (PostHandler (FileReader helloFs) helloConvert helloSlug
        (PostHandler (FileReader emptyFs) helloConvert helloSlug helloState).1).2 =
      Outcome.blocked 119 ∧
    (PostHandler (FileReader helloFs) helloConvert helloSlug
        (PostHandler (FileReader helloFs) failConvert helloSlug helloState).1) =
      ((PostHandler (FileReader helloFs) failConvert helloSlug helloState).1,
        Outcome.blocked 119) := by
  decide

/-- C4, evaluated on the code: `hello` is loaded and the lock is free. After one
earlier request (for the unknown slug `nope`, answered 404, or for `hello` itself,
answered 200) the registry still holds `hello` with Loaded = true and its stored
Content, yet a request for `hello` does not return the post: it waits at the `Lock`
of line 119 and writes no response (it calls neither the reader nor the converter).
And no request makes a post loaded: after two requests for the unloaded `hello` the
post is still unloaded, so no read ever follows a successful render. -/
theorem C4_loaded_request_after_a_request_waits :
    loadedState.postMutex = false ∧
    helloLoaded.Loaded = true ∧
    mapGet (serve (FileReader helloFs) helloConvert [ascii "nope"] loadedState).postsMap
      helloSlug = some helloLoaded ∧
    (serve (FileReader helloFs) helloConvert [ascii "nope"] loadedState).written =
      [Response.text 404 (ascii "Post not found")] ∧
    PostHandler (FileReader helloFs) helloConvert helloSlug
        (serve (FileReader helloFs) helloConvert [ascii "nope"] loadedState) =
      (serve (FileReader helloFs) helloConvert [ascii "nope"] loadedState,
        Outcome.blocked 119) ∧
    mapGet (serve (FileReader helloFs) helloConvert [helloSlug] loadedState).postsMap
      helloSlug = some helloLoaded ∧
    (serve (FileReader helloFs) helloConvert [helloSlug] loadedState).written =
      [Response.render 200 (ascii "post.html") helloLoaded] ∧
    PostHandler (FileReader helloFs) helloConvert helloSlug
        (serve (FileReader helloFs) helloConvert [helloSlug] loadedState) =
      (serve (FileReader helloFs) helloConvert [helloSlug] loadedState,
        Outcome.blocked 119) ∧
    (serve (FileReader helloFs) helloConvert [helloSlug, helloSlug] loadedState).reads = [] ∧
    mapGet (serve (FileReader helloFs) helloConvert [helloSlug, helloSlug] helloState).postsMap
      helloSlug = some helloPost := by
  decide

/-- C5, evaluated on the code: of two consecutive requests for the registered slug
`hello` the second never returns any HTML: it waits at the `Lock` of line 119. When
the post is loaded the first request returns the stored HTML and only that one
response is written; when the post is unloaded the first request already waits at
line 140 and no response is written at all. -/
theorem C5_second_request_returns_nothing :
    PostHandler (FileReader helloFs) helloConvert helloSlug loadedState =
      ({ loadedState with
          postMutex := true,
          written := [Response.render 200 (ascii "post.html") helloLoaded] },
        Outcome.returned) ∧
    (PostHandler (FileReader helloFs) helloConvert helloSlug
        (PostHandler (FileReader helloFs) helloConvert helloSlug loadedState).1) =
      ((PostHandler (FileReader helloFs) helloConvert helloSlug loadedState).1,
        Outcome.blocked 119) ∧
    (PostHandler (FileReader helloFs) helloConvert helloSlug helloState).2 =
      Outcome.blocked 140 ∧
    (PostHandler (FileReader helloFs) helloConvert helloSlug
        (PostHandler (FileReader helloFs) helloConvert helloSlug helloState).1).2 =
      Outcome.blocked 119 ∧
    (serve (FileReader helloFs) helloConvert [helloSlug, helloSlug] helloState).written = [] := by
  decide

/-! ## The body handed to the converter -/

/-- C6: for every document that contains `"+++\n"` there are a prefix and a body with
document = prefix ++ `"+++\n"` ++ body, the body holding no `"+++\n"`, the prefix
ending where the last occurrence starts (no split of the document has a longer
prefix, and `LastIndex` is the length of the prefix), such that lines 126-127 yield
exactly this body and the handler, run for an unloaded post whose read returns the
document, passes exactly this body to the converter; and for the document
`"+++\ntitle=\"A\"\n+++\nsee +++ divider below\n"` the body is
`"see +++ divider below\n"`. -/
theorem C6_body_is_suffix_after_last_delimiter (doc : GoString) (h : delim <:+: doc) :
    (∃ pre body : GoString,
      doc = pre ++ delim ++ body ∧ ¬ delim <:+: body ∧
      LastIndex doc delim = (pre.length : Int) ∧
      (∀ pre1 body1 : GoString, doc = pre1 ++ delim ++ body1 → pre1.length ≤ pre.length) ∧
      extractRest doc = some body ∧
      ∀ (sl : SlugReader) (convert : Converter) (slug : GoString) (s : State) (post : Post),
        s.postMutex = false → mapGet s.postsMap slug = some post → post.Loaded = false →
        (sl s.reads.length post.Slug).1 = doc →
        (PostHandler sl convert slug s).1.converts = s.converts ++ [body]) ∧
    extractRest dividerDoc = some dividerBody ∧
    (PostHandler dividerReader helloConvert (ascii "a") dividerState).1.converts =
      [dividerBody] := by
  refine ⟨?_, by decide, by decide⟩
  obtain ⟨pre, body, hdoc, hno, hLI, hlast, hrest⟩ := extractRest_of_infix doc h
  refine ⟨pre, body, hdoc, hno, hLI, hlast, hrest, ?_⟩
  intro sl convert slug s post hm hget hl hread
  rw [← hread] at hrest
  rw [PostHandler_of_unloaded sl convert slug s post body hm hget hl hrest]

/-- C6 at the document of the example: it holds the delimiter, and the handler passes
`"see +++ divider below\n"` to the converter. -/
theorem C6_body_is_suffix_after_last_delimiter_witness :
    delim <:+: dividerDoc ∧
    extractRest dividerDoc = some dividerBody ∧
    ∃ pre body : GoString, dividerDoc = pre ++ delim ++ body ∧ ¬ delim <:+: body ∧
      extractRest dividerDoc = some body :=
  have hin : delim <:+: dividerDoc := by decide
  have h := C6_body_is_suffix_after_last_delimiter dividerDoc hin
  ⟨hin, h.2.1,
    h.1.elim fun pre hp => hp.elim fun body hb => ⟨pre, body, hb.1, hb.2.1, hb.2.2.2.2.1⟩⟩

/-! ## The global lock -/

/-- C8, evaluated on the code: in the path for the unloaded post `a`, line 119 takes
the free lock, nothing releases it, and the handler reaches the `Lock` of line 140
with the lock still held by itself: that `Lock` cannot proceed and the run ends
waiting there, the post not stored. -/
theorem C8_second_lock_attempted_while_held :
    dividerState.postMutex = false ∧
    Lock dividerState = some { dividerState with postMutex := true } ∧
    PostHandler dividerReader helloConvert (ascii "a") dividerState =
      ({ dividerState with
          postMutex := true, reads := [ascii "a"], converts := [dividerBody] },
        Outcome.blocked 140) ∧
    Lock (PostHandler dividerReader helloConvert (ascii "a") dividerState).1 = none ∧
    mapGet (PostHandler dividerReader helloConvert (ascii "a") dividerState).1.postsMap
      (ascii "a") = mapGet dividerState.postsMap (ascii "a") := by
  decide

/-- C9, evaluated on the code: started with the lock free, the handler returns on the
404 path (empty registry) and on the path of a loaded post with the lock still held,
and on the path of an unloaded post it does not return; the request that follows a
completed request cannot take the lock and waits at line 119. -/
theorem C9_lock_still_held_on_return :
    State.init.postMutex = false ∧
    PostHandler (FileReader emptyFs) helloConvert (ascii "nope") State.init =
      ({ State.init with
          postMutex := true, written := [Response.text 404 (ascii "Post not found")] },
        Outcome.returned) ∧
    Lock (PostHandler (FileReader emptyFs) helloConvert (ascii "nope") State.init).1 = none ∧
    (PostHandler (FileReader emptyFs) helloConvert (ascii "nope")
        (PostHandler (FileReader emptyFs) helloConvert (ascii "nope") State.init).1).2 =
      Outcome.blocked 119 ∧
    loadedState.postMutex = false ∧
    (PostHandler (FileReader helloFs) helloConvert helloSlug loadedState).2 =
      Outcome.returned ∧
    (PostHandler (FileReader helloFs) helloConvert helloSlug loadedState).1.postMutex = true ∧
    (PostHandler (FileReader helloFs) helloConvert (ascii "nope")
        (PostHandler (FileReader helloFs) helloConvert helloSlug loadedState).1).2 =
      Outcome.blocked 119 ∧
    (PostHandler (FileReader helloFs) helloConvert helloSlug helloState).2 ≠
      Outcome.returned := by
  decide

/-- C10, evaluated on the code: for the empty string that accompanies a read error
`LastIndex` is -1, the start index is 3 and exceeds the length 0, so the slice of line
127 is out of range and the handler panics; the same holds for the two-byte document
`"ab"`; a document of three bytes or more without the delimiter is sliced from
index 3. -/
theorem C10_start_index_exceeds_short_document :
    FileReader.Read emptyFs helloSlug = ([], some (ascii "no such file")) ∧
    LastIndex [] delim + (delim.length : Int) = 3 ∧
    ¬ (LastIndex [] delim + (delim.length : Int) ≤ (([] : GoString).length : Int)) ∧
    extractRest [] = none ∧
    LastIndex (ascii "ab") delim + (delim.length : Int) = 3 ∧
    extractRest (ascii "ab") = none ∧
    extractRest (ascii "# Hi") = some (ascii "i") ∧
    (PostHandler (FileReader emptyFs) helloConvert helloSlug helloState).2 =
      Outcome.panicked ∧
    (PostHandler (fun _ _ => (ascii "ab", none)) helloConvert helloSlug helloState).2 =
      Outcome.panicked := by
  decide

/-! ## The registry after startup -/

/-- Setting a key leaves the entry count of every other key as it was. -/
theorem keyCount_mapSet_of_ne (m : List (GoString × Post)) (k k1 : GoString) (p : Post)
    (hne : k1 ≠ k) : keyCount (mapSet m k p) k1 = keyCount m k1 := by
  induction m with
  | nil => simp [mapSet, keyCount, Ne.symm hne]
  | cons e m ih =>
    obtain ⟨k0, v⟩ := e
    by_cases h0 : k0 = k
    · subst h0
      simp [mapSet, keyCount, Ne.symm hne]
    · simp only [mapSet, h0, if_false]
      simp only [keyCount, List.filter_cons] at ih ⊢
      by_cases h1 : k0 = k1
      · simp [h1, ih]
      · simp [h1, ih]

/-- Setting a key that has at most one entry leaves it with exactly one. -/
theorem keyCount_mapSet_self (m : List (GoString × Post)) (k : GoString) (p : Post)
    (hle : keyCount m k ≤ 1) : keyCount (mapSet m k p) k = 1 := by
  induction m with
  | nil => simp [mapSet, keyCount]
  | cons e m ih =>
    obtain ⟨k0, v⟩ := e
    by_cases h0 : k0 = k
    · subst h0
      simp only [keyCount, List.filter_cons, decide_True, if_true, List.length_cons] at hle
      simp only [mapSet, if_true, keyCount, List.filter_cons, decide_True, List.length_cons]
      omega
    · have hle1 : keyCount m k ≤ 1 := by
        simpa [keyCount, List.filter_cons, h0] using hle
      simp only [mapSet, h0, if_false]
      have := ih hle1
      simpa [keyCount, List.filter_cons, h0] using this

/-- A key is found by the lookup exactly when it has an entry. -/
theorem mapGet_isSome_iff (m : List (GoString × Post)) (k : GoString) :
    (mapGet m k).isSome = true ↔ 0 < keyCount m k := by
  induction m with
  | nil => simp [mapGet, keyCount]
  | cons e m ih =>
    obtain ⟨k0, v⟩ := e
    by_cases h0 : k0 = k
    · simp [mapGet, keyCount, List.filter_cons, h0]
    · simpa [mapGet, keyCount, List.filter_cons, h0] using ih

/-- One successful turn of the startup loop, unfolded. -/
theorem mainLoop_cons (fs : FileSystem) (parse : FrontMatter) (name : GoString)
    (files : List GoString) (s : State) (posts : Posts) (r : State × Posts)
    (h : mainLoop fs parse (name :: files) (s, posts) = some r) :
    ∃ post : Post,
      parse (FileReader.Read fs (TrimSuffix name (ascii ".md"))).1
        { Post.zero with Slug := TrimSuffix name (ascii ".md") } = some post ∧
      s.postMutex = false ∧
      mainLoop fs parse files
        ({ s with
            reads := s.reads ++ [TrimSuffix name (ascii ".md")]
            postsMap := mapSet s.postsMap (TrimSuffix name (ascii ".md")) post },
          posts ++ [post]) = some r := by
  simp only [mainLoop] at h
  split at h
  · exact absurd h (by simp)
  · split at h
    · exact absurd h (by simp)
    · rename_i post hpost
      cases hm : s.postMutex with
      | true => simp [Lock, hm] at h
      | false =>
        refine ⟨post, hpost, rfl, ?_⟩
        simp only [Lock, hm, Bool.false_eq_true, if_false, Unlock] at h
        rw [← h, ← hm]

/-- The startup loop keeps the keys of the registry distinct, keeps the keys it
found, makes every file-name slug a key with exactly one entry, appends to the
listing one decoded post per file, and leaves the lock free. -/
theorem mainLoop_spec (fs : FileSystem) (parse : FrontMatter) (files : List GoString) :
    ∀ (s : State) (posts : Posts) (s1 : State) (posts1 : Posts),
      mainLoop fs parse files (s, posts) = some (s1, posts1) →
      (∀ k, keyCount s.postsMap k ≤ 1) →
      (∀ k, keyCount s1.postsMap k ≤ 1) ∧
      (∀ k, keyCount s.postsMap k = 1 → keyCount s1.postsMap k = 1) ∧
      (∀ name ∈ files, keyCount s1.postsMap (TrimSuffix name (ascii ".md")) = 1) ∧
      (∃ added : Posts, posts1 = posts ++ added ∧
        ∀ p ∈ added, ∃ name ∈ files,
          parse (FileReader.Read fs (TrimSuffix name (ascii ".md"))).1
            { Post.zero with Slug := TrimSuffix name (ascii ".md") } = some p) ∧
      s1.postMutex = s.postMutex := by
  induction files with
  | nil =>
    intro s posts s1 posts1 h hnd
    simp only [mainLoop, Option.some.injEq, Prod.mk.injEq] at h
    obtain ⟨rfl, rfl⟩ := h
    exact ⟨hnd, fun _ hk => hk, by simp, ⟨[], by simp, by simp⟩, rfl⟩
  | cons name files ih =>
    intro s posts s1 posts1 h hnd
    obtain ⟨post, hpost, hm, hrec⟩ := mainLoop_cons fs parse name files s posts _ h
    have hnd2 : ∀ k, keyCount (mapSet s.postsMap (TrimSuffix name (ascii ".md")) post) k ≤ 1 := by
      intro k
      by_cases hk : k = TrimSuffix name (ascii ".md")
      · rw [hk, keyCount_mapSet_self _ _ _ (hnd _)]
      · rw [keyCount_mapSet_of_ne _ _ _ _ hk]; exact hnd k
    obtain ⟨a1, a2, a3, ⟨added, hadd, hsrc⟩, a5⟩ := ih _ _ _ _ hrec hnd2
    refine ⟨a1, ?_, ?_, ?_, ?_⟩
    · intro k hk
      apply a2
      by_cases hkn : k = TrimSuffix name (ascii ".md")
      · rw [hkn]; exact keyCount_mapSet_self _ _ _ (hnd _)
      · show keyCount (mapSet s.postsMap _ post) k = 1
        rw [keyCount_mapSet_of_ne _ _ _ _ hkn]; exact hk
    · intro n hn
      rcases List.mem_cons.mp hn with rfl | hn
      · exact a2 _ (keyCount_mapSet_self _ _ _ (hnd _))
      · exact a3 n hn
    · refine ⟨post :: added, by simp [hadd], ?_⟩
      intro p hp
      rcases List.mem_cons.mp hp with rfl | hp
      · exact ⟨name, List.mem_cons_self _ _, hpost⟩
      · obtain ⟨n, hn, hpn⟩ := hsrc p hp
        exact ⟨n, List.mem_cons_of_mem _ hn, hpn⟩
    · exact a5

/-- C7 as amended: after the startup loop has processed any list of post files, each
read and decoded successfully, every file-name slug is a key of `postsMap` with
exactly one registry entry; and when no file has a front matter that changes the
slug away from the file-name slug, every Slug value in the ordered listing is a key of
`postsMap` with exactly one registry entry. -/
theorem C7_listing_slugs_are_keys (fs : FileSystem) (parse : FrontMatter)
    (files : List GoString) (s : State) (posts : Posts)
    (h : startup fs parse files = some (s, posts)) :
    (∀ name ∈ files,
      keyCount s.postsMap (TrimSuffix name (ascii ".md")) = 1 ∧
      (mapGet s.postsMap (TrimSuffix name (ascii ".md"))).isSome = true) ∧
    ((∀ name ∈ files, ∀ q : Post,
        parse (FileReader.Read fs (TrimSuffix name (ascii ".md"))).1
          { Post.zero with Slug := TrimSuffix name (ascii ".md") } = some q →
        q.Slug = TrimSuffix name (ascii ".md")) →
      ∀ p ∈ posts, keyCount s.postsMap p.Slug = 1 ∧ (mapGet s.postsMap p.Slug).isSome = true) := by
  obtain ⟨_, _, hkeys, ⟨added, hadd, hsrc⟩, _⟩ :=
    mainLoop_spec fs parse files State.init [] s posts h (by intro k; simp [State.init, keyCount])
  have hboth : ∀ name ∈ files,
      keyCount s.postsMap (TrimSuffix name (ascii ".md")) = 1 ∧
      (mapGet s.postsMap (TrimSuffix name (ascii ".md"))).isSome = true := by
    intro name hn
    have h1 := hkeys name hn
    exact ⟨h1, (mapGet_isSome_iff _ _).mpr (by omega)⟩
  refine ⟨hboth, ?_⟩
  intro hkeep p hp
  rw [hadd, List.nil_append] at hp
  obtain ⟨name, hn, hpn⟩ := hsrc p hp
  rw [hkeep name hn p hpn]
  exact hboth name hn

/-- C7 as amended, at a concrete directory: `hello.md`, whose front matter names the
slug `hello`; the slug of the one post of the listing is a key with one entry. -/
theorem C7_listing_slugs_are_keys_witness :
    startup helloFs demoParse [ascii "hello.md"] =
      some ({ helloState with reads := [helloSlug] }, [helloPost]) ∧
    keyCount [(helloSlug, helloPost)] (TrimSuffix (ascii "hello.md") (ascii ".md")) = 1 ∧
    keyCount [(helloSlug, helloPost)] helloPost.Slug = 1 ∧
    (mapGet [(helloSlug, helloPost)] helloPost.Slug).isSome = true :=
  have hs : startup helloFs demoParse [ascii "hello.md"] =
      some ({ helloState with reads := [helloSlug] }, [helloPost]) := by decide
  have h := C7_listing_slugs_are_keys helloFs demoParse [ascii "hello.md"] _ _ hs
  have hkeep : ∀ name ∈ [ascii "hello.md"], ∀ q : Post,
      demoParse (FileReader.Read helloFs (TrimSuffix name (ascii ".md"))).1
        { Post.zero with Slug := TrimSuffix name (ascii ".md") } = some q →
      q.Slug = TrimSuffix name (ascii ".md") := by
    intro name hn q hq
    obtain rfl := List.mem_singleton.mp hn
    have hp : demoParse (FileReader.Read helloFs (TrimSuffix (ascii "hello.md") (ascii ".md"))).1
        { Post.zero with Slug := TrimSuffix (ascii "hello.md") (ascii ".md") } =
        some helloPost := by decide
    rw [hp] at hq
    cases hq
    decide
  ⟨hs, (h.1 (ascii "hello.md") (List.mem_singleton.mpr rfl)).1,
    (h.2 hkeep helloPost (List.mem_singleton.mpr rfl)).1,
    (h.2 hkeep helloPost (List.mem_singleton.mpr rfl)).2⟩

/-- C7, counterexample: the directory holds only `a.md`, whose front matter sets
`slug = "b"`; startup succeeds, the ordered listing holds a post with Slug `b`, and
`b` is not a key of `postsMap`: the only key is the file-name slug `a`. -/
theorem C7_overridden_slug_is_not_a_key :
    startup overrideFs demoParse [ascii "a.md"] =
      some ({ State.init with postsMap := [(ascii "a", overridePost)], reads := [ascii "a"] },
        [overridePost]) ∧
    overridePost.Slug = ascii "b" ∧
    mapGet [(ascii "a", overridePost)] (ascii "b") = none ∧
    keyCount [(ascii "a", overridePost)] (ascii "b") = 0 := by
  decide

end Blog
